import Mathlib

/-!
Verification development for the superduperdb component layer
(`components/listener.py`, `components/vector_index.py`, `ext/numpy/encoder.py`).

The Python code is shallowly embedded: documents are association lists of
string fields to values, listener keys are a tagged union of string /
sequence / mapping shapes, numpy arrays are a dtype tag together with the
list of element bit patterns (each element is the `Nat` whose base-256
little-endian digits are the element's bytes in memory), and fallible
Python code (raised exceptions) returns `Except`.
-/

set_option autoImplicit false

namespace SDB

/-! ## Byte-level modelling of numpy buffers

`memoryview(x).tobytes()` serializes a 1-d array in row-major order as the
concatenation of the fixed-width byte representations of its elements, in
the machine's (little-endian) byte order.  An element of an array of dtype
with item size `isz` is modelled as a natural number `< 256 ^ isz`; its
byte representation is its little-endian base-256 digit list. -/

/-- The `n` little-endian base-256 digits of `v` (the bytes of a fixed-width
machine value). -/
def leBytes : Nat → Nat → List Nat
  | 0, _ => []
  | n + 1, v => v % 256 :: leBytes n (v / 256)

/-- Reassemble a machine value from its little-endian byte list. -/
def fromLE : List Nat → Nat
  | [] => 0
  | b :: bs => b + 256 * fromLE bs

/-- Row-major concatenation of the fixed-width byte serializations of the
elements, i.e. `memoryview(x).tobytes()` for a 1-d array. -/
def bytesConcat (isz : Nat) : List Nat → List Nat
  | [] => []
  | v :: rest => leBytes isz v ++ bytesConcat isz rest

/-- Decode `n` consecutive items of width `isz` from the front of a byte
buffer. -/
def decChunksGo (isz : Nat) : Nat → List Nat → List Nat
  | 0, _ => []
  | n + 1, bs => fromLE (bs.take isz) :: decChunksGo isz n (bs.drop isz)

/-- Split a byte buffer into its `length / isz` consecutive items of width
`isz` and decode each, i.e. the element list of `np.frombuffer(bytes, dtype)`
(which is only reached when the length is an exact multiple of `isz`). -/
def decChunks (isz : Nat) (bs : List Nat) : List Nat :=
  decChunksGo isz (bs.length / isz) bs

/-! ## dtypes and arrays -/

/-- A numpy dtype: its name and the byte width of one element. -/
structure NpDtype where
  name : String
  itemsize : Nat
deriving DecidableEq, Repr

/-- `float64`, item size 8 bytes. -/
def float64 : NpDtype := ⟨"float64", 8⟩

/-- A 1-d numpy array: the dtype tag and the per-element bit patterns
(each a `Nat` below `256 ^ itemsize`). -/
structure NpArray where
  dtype : NpDtype
  data : List Nat
deriving DecidableEq, Repr

/-- `np.asarray` on a value that is already array-shaped (the encoders are
only applied to vectors, which `asarray` converts without changing dtype or
contents; we model their arguments as arrays directly). -/
def np_asarray (x : NpArray) : NpArray := x

/-- The `TypeError` raised by the encoders on a dtype mismatch; it names
the actual and the expected dtype, as the Python message
`f'dtype was {x.dtype}, expected {self.dtype}'` does. -/
inductive EncodeErr where
  | dtypeMismatch (actual expected : NpDtype)
deriving DecidableEq, Repr

/-- The `ValueError` raised by `np.frombuffer` when the buffer size is not
a multiple of the item size. -/
inductive DecodeErr where
  | bufferSizeMismatch (buflen itemsize : Nat)
deriving DecidableEq, Repr

namespace NumpyCodec

/-- `superduperdb/ext/numpy/encoder.py`, class `EncodeArray`. -/
structure EncodeArray where
  dtype : NpDtype

/-- `EncodeArray.__call__`: raise `TypeError` unless `x.dtype` equals the
declared dtype, else return `memoryview(x).tobytes()`. -/
def EncodeArray.call (e : EncodeArray) (x : NpArray) : Except EncodeErr (List Nat) :=
  if x.dtype ≠ e.dtype then .error (.dtypeMismatch x.dtype e.dtype)
  else .ok (bytesConcat e.dtype.itemsize x.data)

/-- `superduperdb/ext/numpy/encoder.py`, class `DecodeArray`. -/
structure DecodeArray where
  dtype : NpDtype

/-- `DecodeArray.__call__`: `np.frombuffer(bytes, dtype=self.dtype)`,
returning an array of the declared dtype. -/
def DecodeArray.call (d : DecodeArray) (bs : List Nat) : Except DecodeErr NpArray :=
  if d.dtype.itemsize ≠ 0 ∧ bs.length % d.dtype.itemsize = 0 then
    .ok ⟨d.dtype, decChunks d.dtype.itemsize bs⟩
  else .error (.bufferSizeMismatch bs.length d.dtype.itemsize)

end NumpyCodec

namespace SqlCodec

/-- `superduperdb/components/vector_index.py`, class `EncodeArray`. -/
structure EncodeArray where
  dtype : NpDtype

/-- `EncodeArray.__call__`: `x = np.asarray(x)`; raise `TypeError` unless
`x.dtype` equals the declared dtype, else return `memoryview(x).tobytes()`. -/
def EncodeArray.call (e : EncodeArray) (x0 : NpArray) : Except EncodeErr (List Nat) :=
  let x := np_asarray x0
  if x.dtype ≠ e.dtype then .error (.dtypeMismatch x.dtype e.dtype)
  else .ok (bytesConcat e.dtype.itemsize x.data)

/-- `superduperdb/components/vector_index.py`, class `DecodeArray`. -/
structure DecodeArray where
  dtype : NpDtype

/-- `DecodeArray.__call__`: `np.frombuffer(bytes, dtype=self.dtype).tolist()`,
returning the element list. -/
def DecodeArray.call (d : DecodeArray) (bs : List Nat) : Except DecodeErr (List Nat) :=
  if d.dtype.itemsize ≠ 0 ∧ bs.length % d.dtype.itemsize = 0 then
    .ok (decChunks d.dtype.itemsize bs)
  else .error (.bufferSizeMismatch bs.length d.dtype.itemsize)

end SqlCodec

/-! ## Documents and keys -/

/-- A document value: a scalar, a nested document, or a list. -/
inductive Value where
  | vstr (s : String)
  | vint (n : Int)
  | vdoc (fields : List (String × Value))
  | vlist (items : List Value)

/-- A document: the ordered field/value pairs of a (Mongo-style) dict.
`Document.unpack` and `MongoStyleDict` live outside `src/`; the operations
the code under `src/` performs on them (`keys()`, `__getitem__`,
`__setitem__`, `update`, `in`) are modelled as plain insertion-ordered
dictionary operations. -/
abbrev Doc := List (String × Value)

/-- `document.keys()`. -/
def doc_keys (d : Doc) : List String := d.map (fun p => p.1)

/-- `document[s]`, `none` for a `KeyError`. -/
def doc_lookup : Doc → String → Option Value
  | [], _ => none
  | (k, v) :: rest, s => if k = s then some v else doc_lookup rest s

/-- `document[s] = v`: replace in place, else append (dict insertion order). -/
def doc_set : Doc → String → Value → Doc
  | [], s, v => [(s, v)]
  | (k, w) :: rest, s, v =>
      if k = s then (k, v) :: rest else (k, w) :: doc_set rest s v

/-- `d.update(o)`: set every field of `o` in `d`, in order. -/
def doc_update (d o : Doc) : Doc :=
  o.foldl (fun acc p => doc_set acc p.1 p.2) d

/-- A listener key (`KeyType = t.Union[str, t.List, t.Dict]`): a single
field name, an ordered sequence of keys, or a named mapping of keys. -/
inductive Key where
  | kstr (s : String)
  | klist (ks : List Key)
  | kdict (kvs : List (String × Key))

/-! ## Listener (`superduperdb/components/listener.py`) -/

/-- Python `s.startswith(pre)`: computable character-list prefix test
(the core `String.startsWith` is defined by well-founded byte-position
recursion, which the kernel cannot evaluate). -/
def str_startswith (s pre : String) : Bool :=
  s.data.take pre.data.length == pre.data

/-- Split a character list at every occurrence of the separator. -/
def split_ch (c : Char) : List Char → List (List Char)
  | [] => [[]]
  | x :: xs =>
      let r := split_ch c xs
      if x = c then [] :: r
      else
        match r with
        | [] => [[x]]
        | g :: gs => (x :: g) :: gs

/-- Python `s.split('.')` (and `String.splitOn "."`): the dot-separated
segments, e.g. `'_outputs.x.m'` ↦ `['_outputs', 'x', 'm']`. -/
def str_split (s : String) (c : Char) : List String :=
  (split_ch c s.data).map (fun l => ⟨l⟩)

mutual
/-- `Listener.id_key`'s inner `_id_key`: string passthrough, second
dot-segment for a `'_outputs.'`-prefixed string, comma-join of the
element results for a sequence, comma-join of the value results for a
mapping.  (The Python `else: raise TypeError` branch is unreachable:
`Key` covers exactly the three union members.) -/
def id_key_of : Key → String
  | .kstr s => if str_startswith s "_outputs." then (str_split s '.').getD 1 "" else s
  | .klist ks => String.intercalate "," (id_key_list ks)
  | .kdict kvs => String.intercalate "," (id_key_vals kvs)

/-- `[_id_key(k) for k in key]`. -/
def id_key_list : List Key → List String
  | [] => []
  | k :: ks => id_key_of k :: id_key_list ks

/-- `[_id_key(k) for k in key.values()]`. -/
def id_key_vals : List (String × Key) → List String
  | [] => []
  | (_, k) :: kvs => id_key_of k :: id_key_vals kvs
end

/-- A vector/array codec descriptor (`DataType`, from
`superduperdb/components/datatype.py`, which is not under `src/`).
Modelled from the spec: "DataType (vector codec): shape, encode/decode
pair" (§3); only the members the code under `src/` reads are kept — the
`identifier` and the optional fixed `shape` (read by
`VectorIndex.dimensions` via `getattr(..., 'shape', None)`).  The
encoder/decoder members installed by `sqlvector` are stated separately as
`sqlvector_encoder`/`sqlvector_decoder`, because the two codec classes
return differently typed results. -/
structure DataType where
  identifier : String
  shape : Option (List Nat)

/-- Modelled from the spec: `str_shape` (`superduperdb/ext/utils.py`, not
under `src/`) renders a shape inside a codec identifier string; no claim
depends on its exact output. -/
def str_shape (shape : List Nat) : String :=
  String.intercalate "x" (shape.map toString)

/-- `vector(shape)`: pass-through codec (`encoder=None, decoder=None`). -/
def vector (shape : List Nat) : DataType :=
  ⟨"vector[" ++ str_shape shape ++ "]", some shape⟩

/-- `sqlvector(shape)`: byte-buffer codec with dtype `float64`. -/
def sqlvector (shape : List Nat) : DataType :=
  ⟨"sqlvector[" ++ str_shape shape ++ "]", some shape⟩

/-- The encoder member of `sqlvector(shape)`: `EncodeArray(dtype='float64')`. -/
def sqlvector_encoder : SqlCodec.EncodeArray := ⟨float64⟩

/-- The decoder member of `sqlvector(shape)`: `DecodeArray(dtype='float64')`. -/
def sqlvector_decoder : SqlCodec.DecodeArray := ⟨float64⟩

/-- The input handed to a model by `VectorIndex.get_vector`: the single
field value for a string key, or the ordered list of field values for a
sequence/mapping key. -/
inductive ModelInput where
  | single (v : Value)
  | multi (vs : List Value)

/-- The resolved model object bound to a listener (class `Model` from
`superduperdb/components/model.py`, which is not under `src/`).  Modelled
from the spec: "Predictor: identifier, version, ... optional output codec"
(§3); `predict_one` is the opaque single-item prediction ("apply
preprocess → invoke underlying callable → apply postprocess", §4.1), and
`Model.predict(X, one=True)` delegates to it (§4.1). -/
structure Model where
  identifier : String
  version : Nat
  datatype : Option DataType
  predict_one : ModelInput → Value

/-- The select query bound to a listener (`CompoundSelect`, an external
collaborator per spec §1/§6).  Only the member read by the code under
`src/` is modelled: `output_fields`, the mapping of output field to
owning model (§6). -/
structure CompoundSelect where
  output_fields : List (String × String)

/-- A scheduled prediction job, as issued by `Listener.schedule_jobs`.
Modelled from the spec: a job is "a deferred unit of work (component
identifier, method name, positional/keyword arguments)" (§4.1), here
"bound to this listener's model/key/select/options, declaring the given
upstream jobs as prerequisites" (§4.2).  Upstream jobs are identified by
opaque job ids. -/
structure PredictJob where
  component : String
  x : Key
  select : CompoundSelect
  dependencies : List Nat
  kwargs : List (String × String)

/-- Modelled from the spec: `Model.predict(X=key, db=db, select=select,
dependencies=dependencies, **predict_kwargs)` (the call made by
`Listener.schedule_jobs`; `Model.predict` is not under `src/`) issues one
prediction job of the above shape (§4.1, §4.2). -/
def Model.predict_job (m : Model) (x : Key) (select : CompoundSelect)
    (dependencies : List Nat) (kwargs : List (String × String)) : PredictJob :=
  ⟨m.identifier, x, select, dependencies, kwargs⟩

/-- A listener with its model reference already resolved to a live model
object (the `t.Union[str, Model]` member after `pre_create`; the claims
about `outputs`, `schedule_jobs` and `models_keys` all presuppose a
resolved, non-string model — the code asserts this). -/
structure Listener where
  key : Key
  model : Model
  select : CompoundSelect
  identifier : String
  active : Bool
  predict_kwargs : List (String × String)

/-- Modelled from the spec: the constant `_OUTPUTS_KEY` is imported from
`superduperdb/base/document.py`, which is not under `src/`.  The spec
marks listener-output references with the prefix `'_outputs.'` (§3, §4.2),
`VectorIndex.get_vector` merges precomputed outputs under
`document['_outputs']`, and the `src/` test `test_predict_insert` reads an
output back from `r['_outputs'][...]`; hence `_OUTPUTS_KEY = '_outputs'`. -/
def OUTPUTS_KEY : String := "_outputs"

/-- `Listener.id_key`. -/
def Listener.id_key (l : Listener) : String := id_key_of l.key

/-- `Listener.outputs`:
`f'{_OUTPUTS_KEY}.{self.id_key}.{self.model.identifier}.{self.model.version}'`. -/
def Listener.outputs (l : Listener) : String :=
  OUTPUTS_KEY ++ "." ++ l.id_key ++ "." ++ l.model.identifier ++ "."
    ++ toString l.model.version

/-- One `check_dependable(k)` step of `Listener.dependencies`: a
`'_outputs.'`-prefixed component contributes `f'{model}/{key}'` from its
dot-split `_, key, model`.  `none` marks the cases where Python raises: a
non-string component (`AttributeError` on `.startswith`) or a prefixed
component whose dot-split does not have exactly three segments (unpacking
`ValueError`). -/
def check_dependable : Key → Option (List String)
  | .kstr s =>
      if str_startswith s "_outputs." then
        match str_split s '.' with
        | [_, key, model] => some [model ++ "/" ++ key]
        | _ => none
      else some []
  | _ => none

/-- The `for k in ...: check_dependable(k)` loop: each component appends
its contribution to `out` in order; a raising component aborts. -/
def deps_fold : List Key → List String → Option (List String)
  | [], acc => some acc
  | k :: ks, acc =>
      match check_dependable k with
      | some w => deps_fold ks (acc ++ w)
      | none => none

/-- The key dispatch of `Listener.dependencies`: the string itself, the
sequence's elements in order, or the mapping's values in order. -/
def key_deps : Key → Option (List String)
  | .kstr s => check_dependable (.kstr s)
  | .klist ks => deps_fold ks []
  | .kdict kvs => deps_fold (kvs.map (fun p => p.2)) []

/-- `Listener.dependencies`: the contributions of the key's components,
extended with `f'{v}/{k}'` for the select query's `output_fields` items
when that mapping is non-empty. -/
def Listener.dependencies (l : Listener) : Option (List String) :=
  (key_deps l.key).map (fun out =>
    if l.select.output_fields.isEmpty then out
    else out ++ l.select.output_fields.map (fun p => p.2 ++ "/" ++ p.1))

/-- `Listener.schedule_jobs(db, dependencies, verbose)`: `[]` when
inactive, else the one prediction job issued by `self.model.predict(...)`.
The `db` handle and `verbose` flag are passed through to the external
`Model.predict` and do not shape the job. -/
def Listener.schedule_jobs (l : Listener) (dependencies : List Nat) :
    List PredictJob :=
  if !l.active then []
  else [l.model.predict_job l.key l.select dependencies l.predict_kwargs]

/-! ## VectorIndex (`superduperdb/components/vector_index.py`) -/

/-- `VectorIndexMeasureType`. -/
inductive VectorIndexMeasureType where
  | cosine
  | dot
  | l2
deriving DecidableEq, Repr

/-- A vector index whose listeners are already resolved (post `on_load`;
the code asserts non-string listeners in `models_keys` and `dimensions`).
`metric_values` is carried for fidelity but read by no claim. -/
structure VectorIndex where
  identifier : String
  indexing_listener : Listener
  compatible_listener : Option Listener
  measure : VectorIndexMeasureType
  metric_values : List (String × Int)

/-- An external vector-search backend
(`db.fast_vector_searchers[identifier]`, spec §6): the two query shapes it
must support, returning results of an opaque type `ρ`. -/
structure VectorSearcher (ρ : Type) where
  find_nearest_from_id : String → List String → Nat → ρ
  find_nearest_from_array : Value → List String → Nat → ρ

/-- The slice of the external `Datalayer` read by this code (spec §6):
the model registry and the per-index search backends. -/
structure Datalayer (ρ : Type) where
  models : String → Option Model
  fast_vector_searchers : String → VectorSearcher ρ

/-- The errors `get_vector`/`get_nearest` can raise. -/
inductive VectorErr where
  /-- the `Exception` whose message interpolates the provided document,
  the index's keys and its models:
  `f'Keys in provided {like} dont match VectorIndex keys: {keys}, with model: {models}'`. -/
  | keysMismatch (like : Doc) (keys : List Key) (models : List String)
  /-- `KeyError` from `document[k]`. -/
  | missingField (field : String)
  /-- `document[k]` with a non-string `k` (`TypeError`); unreachable after
  a successful match. -/
  | badFieldType
  /-- `models[kix]` out of range (`IndexError`). -/
  | indexError
  /-- `document['_outputs'].update(outputs)` on a non-dict field
  (`AttributeError`). -/
  | badOutputsField
  /-- `db.models[model_name]` not found (`KeyError`). -/
  | unknownModel (name : String)

/-- Membership test `i in available_keys` for one element `i` of a
sequence/mapping key: only a string element can equal an available field
name. -/
def elem_in_available (avail : List String) : Key → Bool
  | .kstr s => avail.contains s
  | _ => false

/-- The per-pair match test of the `get_vector` loop: a string key must
itself be an available field; a sequence (mapping) key requires all its
elements (values) to be available fields. -/
def key_matches (avail : List String) : Key → Bool
  | .kstr s => avail.contains s
  | .klist ks => ks.all (elem_in_available avail)
  | .kdict kvs => kvs.all (fun p => elem_in_available avail p.2)

/-- Python truthiness of a matched key, tested by `if not key:`. -/
def key_falsy : Key → Bool
  | .kstr s => s.data.isEmpty
  | .klist ks => ks.isEmpty
  | .kdict kvs => kvs.isEmpty

/-- The selection loop `for m, k in zip(models, keys): if <match>:
model_name, key = m, k` — each match overwrites the previous one, so the
last matching pair survives. -/
def pick_model_key (avail : List String) (pairs : List (String × Key)) :
    Option (String × Key) :=
  pairs.foldl (fun acc p => if key_matches avail p.2 then some p else acc) none

/-- `keys.index('_base')` compares each element with the string
`'_base'`; only a string key equal to `'_base'` can succeed. -/
def is_base_key : Key → Bool
  | .kstr s => s == "_base"
  | _ => false

/-- `document[k]` for one element of a sequence/mapping key. -/
def lookup_field (d : Doc) : Key → Except VectorErr Value
  | .kstr s =>
      match doc_lookup d s with
      | some v => .ok v
      | none => .error (.missingField s)
  | _ => .error .badFieldType

/-- The list comprehension `[document[k] for k in ...]`. -/
def lookup_fields (d : Doc) : List Key → Except VectorErr (List Value)
  | [] => .ok []
  | k :: ks =>
      match lookup_field d k with
      | .ok v => (lookup_fields d ks).map (v :: ·)
      | .error e => .error e

/-- The extraction switch of `get_vector`: `document[key]` for a string
key, `[document[k] for k in list(key)]` for a sequence key,
`[document[k] for k in key.values()]` for a mapping key.  (The trailing
`else: model_input = document` branch is unreachable: `Key` covers
exactly the three union members.) -/
def extract_input (d : Doc) : Key → Except VectorErr ModelInput
  | .kstr s =>
      match doc_lookup d s with
      | some v => .ok (.single v)
      | none => .error (.missingField s)
  | .klist ks => (lookup_fields d ks).map .multi
  | .kdict kvs => (lookup_fields d (kvs.map (fun p => p.2))).map .multi

/-- `VectorIndex.get_vector(like, models, keys, db, outputs)`. -/
def VectorIndex.get_vector {ρ : Type} (_vi : VectorIndex) (like : Doc)
    (models : List String) (keys : List Key) (db : Datalayer ρ)
    (outputs : Option Doc) : Except VectorErr (Value × String × Key) :=
  let docE : Except VectorErr Doc :=
    match outputs with
    | none => .ok like
    | some o =>
        match doc_lookup like "_outputs" with
        | some (.vdoc d) => .ok (doc_set like "_outputs" (.vdoc (doc_update d o)))
        | some _ => .error .badOutputsField
        | none => .ok (doc_set like "_outputs" (.vdoc (doc_update [] o)))
  docE.bind (fun document =>
    let available_keys := doc_keys document
    let picked := pick_model_key available_keys (models.zip keys)
    let fallback : Except VectorErr (String × Key) :=
      match List.findIdx? is_base_key keys with
      | some kix =>
          match models.get? kix, keys.get? kix with
          | some m, some k => .ok (m, k)
          | _, _ => .error .indexError
      | none => .error (.keysMismatch like keys models)
    let resolvedE : Except VectorErr (String × Key) :=
      match picked with
      | some (m, k) => if key_falsy k then fallback else .ok (m, k)
      | none => fallback
    resolvedE.bind (fun mk =>
      (extract_input document mk.2).bind (fun input =>
        match db.models mk.1 with
        | some model => .ok (model.predict_one input, model.identifier, mk.2)
        | none => .error (.unknownModel mk.1))))

/-- `VectorIndex.models_keys`: parallel (model identifier, key) lists over
`[indexing_listener, compatible_listener]` (the latter when present). -/
def VectorIndex.models_keys (vi : VectorIndex) : List String × List Key :=
  let listeners :=
    match vi.compatible_listener with
    | some cl => [vi.indexing_listener, cl]
    | none => [vi.indexing_listener]
  (listeners.map (fun w => w.model.identifier), listeners.map (fun w => w.key))

/-- `getattr(self.indexing_listener.model.datatype, 'shape', None)`. -/
def getattr_shape : Option DataType → Option (List Nat)
  | none => none
  | some dt => dt.shape

/-- The `ValueError` of `VectorIndex.dimensions` (message: could not get
the shape of the model outputs from the model encoder). -/
inductive DimensionsErr where
  | noShape
deriving DecidableEq, Repr

/-- `VectorIndex.dimensions`: `shape[-1]` when the walrus-tested
`getattr(..., 'shape', None)` is truthy (a non-empty shape), else the
`ValueError`. -/
def VectorIndex.dimensions (vi : VectorIndex) : Except DimensionsErr Nat :=
  match getattr_shape vi.indexing_listener.model.datatype with
  | some s => if h : s = [] then .error .noShape else .ok (s.getLast h)
  | none => .error .noShape

/-- `str(like[id_field])` for the id short-circuit of `get_nearest`; the
rendering of non-string ids is canonical (no claim reads it). -/
def value_str : Value → String
  | .vstr s => s
  | .vint n => toString n
  | .vdoc _ => "{...}"
  | .vlist _ => "[...]"

/-- The errors `get_nearest` can raise. -/
inductive NearestErr where
  /-- `ValueError(f'len(model={models}) != len(keys={keys})')`. -/
  | lenMismatch (models : List String) (keys : List Key)
  /-- an error propagated from `get_vector`. -/
  | vec (e : VectorErr)

/-- `VectorIndex.get_nearest(like, db, id_field, outputs, ids, n)`:
length guard, then nearest-by-id when the document carries `id_field`,
else nearest-by-vector via `get_vector`. -/
def VectorIndex.get_nearest {ρ : Type} (vi : VectorIndex) (like : Doc)
    (db : Datalayer ρ) (id_field : String) (outputs : Option Doc)
    (ids : Option (List String)) (n : Nat) : Except NearestErr ρ :=
  let mk := vi.models_keys
  if mk.1.length ≠ mk.2.length then .error (.lenMismatch mk.1 mk.2)
  else
    let within_ids := ids.getD []
    match doc_lookup like id_field with
    | some v =>
        .ok ((db.fast_vector_searchers vi.identifier).find_nearest_from_id
          (value_str v) within_ids n)
    | none =>
        match vi.get_vector like mk.1 mk.2 db outputs with
        | .ok h => .ok ((db.fast_vector_searchers vi.identifier).find_nearest_from_array
            h.1 within_ids n)
        | .error e => .error (.vec e)

/-- The string carried by a component of a key, `none` for a non-string
component. -/
def keyStr : Key → Option String
  | .kstr s => some s
  | _ => none

/-- The strings carried by a list of components; `none` when some
component is not a string. -/
def strs_of : List Key → Option (List String)
  | [] => some []
  | k :: ks =>
      match keyStr k with
      | some s => (strs_of ks).map (s :: ·)
      | none => none

/-- The components of a key as iterated by `Listener.dependencies`: the
string itself, the sequence's elements, or the mapping's values; `none`
when some component is not a string. -/
def key_components : Key → Option (List String)
  | .kstr s => some [s]
  | .klist ks => strs_of ks
  | .kdict kvs => strs_of (kvs.map (fun p => p.2))

/-- The model input the claim describes, for a key whose required fields
are present: the single field value, the sequence's field values in
order, or the mapping's value-field values in order (the defaults are
never reached under a successful match). -/
def spec_fields (d : Doc) (ks : List Key) : List Value :=
  ks.map (fun k =>
    match k with
    | .kstr s => (doc_lookup d s).getD (.vint 0)
    | _ => .vint 0)

/-- The claim-side description of the extracted model input. -/
def spec_input (d : Doc) : Key → ModelInput
  | .kstr s => .single ((doc_lookup d s).getD (.vint 0))
  | .klist ks => .multi (spec_fields d ks)
  | .kdict kvs => .multi (spec_fields d (kvs.map (fun p => p.2)))

/-- Concrete fixtures used by witnesses and counterexamples. -/
def fix_model1 : Model := ⟨"m1", 0, none, fun _ => .vint 41⟩

def fix_model2 : Model := ⟨"m2", 0, none, fun _ => .vint 42⟩

def fix_listener : Listener := ⟨.kstr "a", fix_model1, ⟨[]⟩, "m1/a", true, []⟩

def fix_vi : VectorIndex := ⟨"vi", fix_listener, none, .cosine, []⟩

def fix_listener2 : Listener := ⟨.kstr "b", fix_model2, ⟨[]⟩, "m2/b", true, []⟩

def fix_vi2 : VectorIndex := ⟨"vi2", fix_listener, some fix_listener2, .cosine, []⟩

def fix_db : Datalayer Unit :=
  ⟨fun s =>
    if s = "m1" then some fix_model1
    else if s = "m2" then some fix_model2
    else none,
   fun _ => ⟨fun _ _ _ => (), fun _ _ _ => ()⟩⟩

/-! ## Lemmas and claims -/

theorem leBytes_length (n : Nat) : ∀ v, (leBytes n v).length = n := by
  induction n with
  | zero => intro v; rfl
  | succ n ih => intro v; simp [leBytes, ih]

theorem fromLE_leBytes (n : Nat) : ∀ v, v < 256 ^ n → fromLE (leBytes n v) = v := by
  induction n with
  | zero =>
    intro v hv
    simp only [pow_zero, Nat.lt_one_iff] at hv
    simp [hv, leBytes, fromLE]
  | succ n ih =>
    intro v hv
    have hdiv : v / 256 < 256 ^ n := by
      rw [Nat.div_lt_iff_lt_mul (by norm_num : (0:Nat) < 256)]
      calc v < 256 ^ (n + 1) := hv
        _ = 256 ^ n * 256 := pow_succ 256 n
    simp only [leBytes, fromLE, ih _ hdiv]
    omega

theorem bytesConcat_length (isz : Nat) :
    ∀ data : List Nat, (bytesConcat isz data).length = data.length * isz := by
  intro data
  induction data with
  | nil => simp [bytesConcat]
  | cons v rest ih =>
    simp [bytesConcat, leBytes_length, ih, Nat.succ_mul]
    omega

theorem decChunksGo_bytesConcat (isz : Nat) :
    ∀ data : List Nat, (∀ v ∈ data, v < 256 ^ isz) →
      decChunksGo isz data.length (bytesConcat isz data) = data := by
  intro data
  induction data with
  | nil => intro _; rfl
  | cons v rest ih =>
    intro hb
    have hvlt : v < 256 ^ isz := hb v (List.mem_cons_self v rest)
    have hrest : ∀ w ∈ rest, w < 256 ^ isz := fun w hw => hb w (List.mem_cons_of_mem v hw)
    have hlen : (leBytes isz v).length = isz := leBytes_length isz v
    have htake : (leBytes isz v ++ bytesConcat isz rest).take isz = leBytes isz v :=
      List.take_left' hlen
    have hdrop : (leBytes isz v ++ bytesConcat isz rest).drop isz = bytesConcat isz rest :=
      List.drop_left' hlen
    simp only [List.length_cons, bytesConcat, decChunksGo, htake, hdrop,
      fromLE_leBytes isz v hvlt, ih hrest]

theorem decChunks_bytesConcat (isz : Nat) (hisz : 0 < isz)
    (data : List Nat) (hb : ∀ v ∈ data, v < 256 ^ isz) :
    decChunks isz (bytesConcat isz data) = data := by
  unfold decChunks
  rw [bytesConcat_length, Nat.mul_div_cancel _ hisz]
  exact decChunksGo_bytesConcat isz data hb

theorem id_key_list_eq_map (ks : List Key) : id_key_list ks = ks.map id_key_of := by
  induction ks with
  | nil => rfl
  | cons k ks ih => simp [id_key_list, ih]

theorem id_key_vals_eq_map (kvs : List (String × Key)) :
    id_key_vals kvs = kvs.map (fun p => id_key_of p.2) := by
  induction kvs with
  | nil => rfl
  | cons p kvs ih => cases p; simp [id_key_vals, ih]


/-- C3: for every key given as a string, list/tuple, or mapping,
`id_key(key)` is a deterministic pure function of the key: a plain string
key is returned unchanged, a string key prefixed `'_outputs.'` yields the
second dot-separated segment, and for a sequence (or a mapping's values)
the per-element results are joined by commas; repeated calls on the same
key give the same string. -/
theorem C3_id_key_pure_and_shape :
    (∀ l : Listener, l.id_key = id_key_of l.key) ∧
    (∀ s : String, str_startswith s "_outputs." = false → id_key_of (.kstr s) = s) ∧
    (∀ s : String, str_startswith s "_outputs." = true →
        id_key_of (.kstr s) = (str_split s '.').getD 1 "") ∧
    (∀ ks : List Key,
        id_key_of (.klist ks) = String.intercalate "," (ks.map id_key_of)) ∧
    (∀ kvs : List (String × Key),
        id_key_of (.kdict kvs)
          = String.intercalate "," (kvs.map (fun p => id_key_of p.2))) ∧
    (∀ k k' : Key, k = k' → id_key_of k = id_key_of k') := by
  refine ⟨fun l => rfl, fun s h => ?_, fun s h => ?_, fun ks => ?_, fun kvs => ?_,
    fun k k' h => by rw [h]⟩
  · simp [id_key_of, h]
  · simp [id_key_of, h]
  · simp [id_key_of, id_key_list_eq_map]
  · simp [id_key_of, id_key_vals_eq_map]

/-- C3 witness: the theorem applied at concrete keys of each shape. -/
theorem C3_id_key_witness :
    id_key_of (.kstr "txt") = "txt" ∧
    id_key_of (.kstr "_outputs.x.m") = (str_split "_outputs.x.m" '.').getD 1 "" ∧
    id_key_of (.klist [.kstr "a", .kstr "_outputs.x.m"])
      = String.intercalate "," ([Key.kstr "a", .kstr "_outputs.x.m"].map id_key_of) ∧
    id_key_of (.kdict [("u", .kstr "a"), ("v", .kstr "b")])
      = String.intercalate ","
          ([("u", Key.kstr "a"), ("v", Key.kstr "b")].map (fun p => id_key_of p.2)) :=
  ⟨C3_id_key_pure_and_shape.2.1 "txt" (by decide),
   C3_id_key_pure_and_shape.2.2.1 "_outputs.x.m" (by decide),
   C3_id_key_pure_and_shape.2.2.2.1 [.kstr "a", .kstr "_outputs.x.m"],
   C3_id_key_pure_and_shape.2.2.2.2.1 [("u", .kstr "a"), ("v", .kstr "b")]⟩

theorem strs_of_eq (ks : List Key) (comps : List String) :
    strs_of ks = some comps → ks = comps.map Key.kstr := by
  induction ks generalizing comps with
  | nil => intro h; simp only [strs_of, Option.some.injEq] at h; simp [← h]
  | cons k ks ih =>
    intro h
    cases k with
    | kstr s =>
      simp only [strs_of, keyStr] at h
      cases hrest : strs_of ks with
      | none => rw [hrest] at h; simp at h
      | some rest =>
        rw [hrest] at h
        simp only [Option.map_some', Option.some.injEq] at h
        subst h
        simp [ih rest hrest]
    | klist ks2 => simp [strs_of, keyStr] at h
    | kdict kvs2 => simp [strs_of, keyStr] at h

/-- The single dependency pair contributed by a string component, under
the well-formedness the code needs (a prefixed component splits into
exactly three segments). -/
theorem check_dependable_str (s : String)
    (h3 : str_startswith s "_outputs." = true → (str_split s '.').length = 3) :
    check_dependable (.kstr s)
      = some (if str_startswith s "_outputs." then
            [(str_split s '.').getD 2 "" ++ "/" ++ (str_split s '.').getD 1 ""]
          else []) := by
  by_cases h : str_startswith s "_outputs."
  · have hlen := h3 h
    rcases hsp : str_split s '.' with _ | ⟨a, _ | ⟨b, _ | ⟨c, _ | ⟨d, e⟩⟩⟩⟩ <;>
      rw [hsp] at hlen <;> simp at hlen
    simp [check_dependable, h, hsp]
  · simp [check_dependable, h]

theorem deps_fold_strs (comps : List String) :
    ∀ acc : List String,
    (∀ s ∈ comps, str_startswith s "_outputs." = true → (str_split s '.').length = 3) →
    deps_fold (comps.map Key.kstr) acc
      = some (acc ++ (comps.filter (fun s => str_startswith s "_outputs.")).map
          (fun s => (str_split s '.').getD 2 "" ++ "/" ++ (str_split s '.').getD 1 "")) := by
  induction comps with
  | nil => intro acc _; simp [deps_fold]
  | cons s rest ih =>
    intro acc h3
    have hs := check_dependable_str s (h3 s (List.mem_cons_self s rest))
    have hrest : ∀ t ∈ rest, str_startswith t "_outputs." = true →
        (str_split t '.').length = 3 :=
      fun t ht => h3 t (List.mem_cons_of_mem s ht)
    simp only [List.map_cons, deps_fold, hs]
    by_cases h : str_startswith s "_outputs."
    · simp only [h, if_true]
      rw [ih _ hrest]
      simp [h, List.filter_cons, List.append_assoc]
    · simp only [h, if_false]
      rw [ih _ hrest]
      simp [h, List.filter_cons]

/-- C5: for every listener whose key components are strings and whose
`'_outputs.'`-prefixed components split into exactly three dot-separated
segments (the shape the code unpacks), `dependencies` returns exactly:
for each `'_outputs.'`-prefixed component the pair string
`'<upstream_model_identifier>/<upstream_key>'` formed from that
component's segments, followed by one `'<owning_model>/<field>'` pair per
entry of the select query's `output_fields` mapping. -/
theorem C5_dependencies (l : Listener) (comps : List String)
    (hc : key_components l.key = some comps)
    (h3 : ∀ s ∈ comps, str_startswith s "_outputs." = true →
        (str_split s '.').length = 3) :
    l.dependencies = some
      ((comps.filter (fun s => str_startswith s "_outputs.")).map
          (fun s => (str_split s '.').getD 2 "" ++ "/" ++ (str_split s '.').getD 1 "")
        ++ l.select.output_fields.map (fun p => p.2 ++ "/" ++ p.1)) := by
  have hfilter := deps_fold_strs comps [] h3
  simp only [List.nil_append] at hfilter
  obtain ⟨key, model, sel, ident, act, pk⟩ := l
  simp only at hc ⊢
  have hfields :
      ∀ out : List String,
        (if sel.output_fields.isEmpty then out
          else out ++ sel.output_fields.map (fun p => p.2 ++ "/" ++ p.1))
        = out ++ sel.output_fields.map (fun p => p.2 ++ "/" ++ p.1) := by
    intro out
    by_cases hf : sel.output_fields.isEmpty
    · rw [if_pos hf, List.isEmpty_iff.mp hf]
      simp
    · rw [if_neg hf]
  simp only [Listener.dependencies] at hfields ⊢
  cases key with
  | kstr s =>
    simp only [key_components, Option.some.injEq] at hc
    subst hc
    have hs := check_dependable_str s (fun h => h3 s (List.mem_cons_self s []) h)
    simp only [key_deps, hs, Option.map_some', Option.some.injEq]
    rw [hfields]
    by_cases h : str_startswith s "_outputs." <;> simp [h, List.filter_cons]
  | klist ks =>
    simp only [key_components] at hc
    have hks := strs_of_eq ks comps hc
    subst hks
    simp only [key_deps, hfilter, Option.map_some', Option.some.injEq]
    exact hfields _
  | kdict kvs =>
    simp only [key_components] at hc
    have hks := strs_of_eq _ comps hc
    simp only [key_deps, hks, hfilter, Option.map_some', Option.some.injEq]
    exact hfields _

/-- C5 witness: the theorem applied to a concrete listener with one
upstream-output component, one plain component, and one declared output
field. -/
theorem C5_dependencies_witness :
    Listener.dependencies
        ⟨.klist [.kstr "_outputs.x.ma", .kstr "plain"],
          ⟨"m", 0, none, fun _ => .vint 0⟩, ⟨[("f1", "mo")]⟩, "m/x,plain", true, []⟩
      = some ["ma/x", "mo/f1"] :=
  C5_dependencies _ ["_outputs.x.ma", "plain"] rfl (by decide)

/-- C8: `dimensions` returns the last component of the indexing
listener's model codec's declared (non-empty) shape, and fails with the
explicit shape error — rather than inferring a default — when the codec
declares no shape. -/
theorem C8_dimensions (vi : VectorIndex) :
    (∀ (s : List Nat) (_ : getattr_shape vi.indexing_listener.model.datatype = some s)
        (hne : s ≠ []), vi.dimensions = .ok (s.getLast hne)) ∧
    (getattr_shape vi.indexing_listener.model.datatype = none →
        vi.dimensions = .error .noShape) := by
  constructor
  · intro s hs hne
    unfold VectorIndex.dimensions
    rw [hs]
    exact dif_neg hne
  · intro hs
    unfold VectorIndex.dimensions
    rw [hs]

/-- C8 witness: a vector index over 4-dimensional model outputs
(`vector [4]`) has `dimensions = 4`; one whose model declares no codec
shape fails. -/
theorem C8_dimensions_witness :
    VectorIndex.dimensions
        ⟨"vi4", ⟨.kstr "x", ⟨"m", 0, some (vector [4]), fun _ => .vint 0⟩, ⟨[]⟩,
          "m/x", true, []⟩, none, .cosine, []⟩
      = .ok 4 ∧
    VectorIndex.dimensions
        ⟨"vi0", ⟨.kstr "x", ⟨"m", 0, none, fun _ => .vint 0⟩, ⟨[]⟩,
          "m/x", true, []⟩, none, .cosine, []⟩
      = .error .noShape :=
  ⟨(C8_dimensions
      ⟨"vi4", ⟨.kstr "x", ⟨"m", 0, some (vector [4]), fun _ => .vint 0⟩, ⟨[]⟩,
        "m/x", true, []⟩, none, .cosine, []⟩).1 [4] rfl (by decide),
   (C8_dimensions
      ⟨"vi0", ⟨.kstr "x", ⟨"m", 0, none, fun _ => .vint 0⟩, ⟨[]⟩,
        "m/x", true, []⟩, none, .cosine, []⟩).2 rfl⟩

/-- C2: decoding the result of encoding a vector of the declared dtype
yields the vector back, both for the SQL-compatible byte-buffer codec
installed by `sqlvector` (dtype `float64`) and for the numpy array codec
at any dtype of positive item width. -/
theorem C2_roundtrip :
    (∀ x : NpArray, x.dtype = float64 → (∀ v ∈ x.data, v < 256 ^ 8) →
      ∃ bs, sqlvector_encoder.call x = .ok bs ∧
        sqlvector_decoder.call bs = .ok x.data) ∧
    (∀ (dt : NpDtype) (x : NpArray), 0 < dt.itemsize → x.dtype = dt →
      (∀ v ∈ x.data, v < 256 ^ dt.itemsize) →
      ∃ bs, NumpyCodec.EncodeArray.call ⟨dt⟩ x = .ok bs ∧
        NumpyCodec.DecodeArray.call ⟨dt⟩ bs = .ok x) := by
  constructor
  · intro x hdt hb
    refine ⟨bytesConcat 8 x.data, ?_, ?_⟩
    · simp [SqlCodec.EncodeArray.call, sqlvector_encoder, np_asarray, hdt, float64]
    · have hlen : (bytesConcat 8 x.data).length % 8 = 0 := by
        rw [bytesConcat_length]
        exact Nat.mul_mod_left _ _
      simp [SqlCodec.DecodeArray.call, sqlvector_decoder, float64, hlen,
        decChunks_bytesConcat 8 (by norm_num) x.data hb]
  · intro dt x hpos hdt hb
    obtain ⟨xd, xdata⟩ := x
    simp only at hdt hb
    subst hdt
    refine ⟨bytesConcat xd.itemsize xdata, ?_, ?_⟩
    · simp [NumpyCodec.EncodeArray.call]
    · have hlen : (bytesConcat xd.itemsize xdata).length % xd.itemsize = 0 := by
        rw [bytesConcat_length]
        exact Nat.mul_mod_left _ _
      simp [NumpyCodec.DecodeArray.call, hlen, Nat.pos_iff_ne_zero.mp hpos,
        decChunks_bytesConcat xd.itemsize hpos xdata hb]

/-- C2 witness: the theorem applied to concrete vectors through both
codecs (a float64 vector through the sql codec, a 4-byte-dtype vector
through the numpy codec). -/
theorem C2_roundtrip_witness :
    (∃ bs, sqlvector_encoder.call ⟨float64, [1, 258]⟩ = .ok bs ∧
        sqlvector_decoder.call bs = .ok [1, 258]) ∧
    (∃ bs, NumpyCodec.EncodeArray.call ⟨⟨"float32", 4⟩⟩ ⟨⟨"float32", 4⟩, [7]⟩
          = .ok bs ∧
        NumpyCodec.DecodeArray.call ⟨⟨"float32", 4⟩⟩ bs
          = .ok ⟨⟨"float32", 4⟩, [7]⟩) :=
  ⟨C2_roundtrip.1 ⟨float64, [1, 258]⟩ rfl (by decide),
   C2_roundtrip.2 ⟨"float32", 4⟩ ⟨⟨"float32", 4⟩, [7]⟩ (by decide) rfl (by decide)⟩

/-- C7: for an input whose dtype is not the codec's declared dtype, both
encoder classes fail with the type error naming the actual and the
expected dtype — no coercion; for an input of the declared dtype they
return the row-major serialization, of fixed width
`itemsize` bytes per element. -/
theorem C7_encode_dtype :
    (∀ (dt : NpDtype) (x : NpArray), x.dtype ≠ dt →
      NumpyCodec.EncodeArray.call ⟨dt⟩ x = .error (.dtypeMismatch x.dtype dt) ∧
      SqlCodec.EncodeArray.call ⟨dt⟩ x = .error (.dtypeMismatch x.dtype dt)) ∧
    (∀ (dt : NpDtype) (x : NpArray), x.dtype = dt →
      NumpyCodec.EncodeArray.call ⟨dt⟩ x = .ok (bytesConcat dt.itemsize x.data) ∧
      SqlCodec.EncodeArray.call ⟨dt⟩ x = .ok (bytesConcat dt.itemsize x.data) ∧
      (bytesConcat dt.itemsize x.data).length = x.data.length * dt.itemsize) := by
  constructor
  · intro dt x h
    constructor <;>
      simp [NumpyCodec.EncodeArray.call, SqlCodec.EncodeArray.call, np_asarray, h]
  · intro dt x h
    refine ⟨?_, ?_, bytesConcat_length _ _⟩ <;>
      simp [NumpyCodec.EncodeArray.call, SqlCodec.EncodeArray.call, np_asarray, h]

/-- C7 witness: the theorem applied to a float32 input offered to the
float64 codec (type error naming both dtypes) and to a float64 input
(serialized to 8 bytes per element). -/
theorem C7_encode_dtype_witness :
    (NumpyCodec.EncodeArray.call ⟨float64⟩ ⟨⟨"float32", 4⟩, [7]⟩
        = .error (.dtypeMismatch ⟨"float32", 4⟩ float64) ∧
      SqlCodec.EncodeArray.call ⟨float64⟩ ⟨⟨"float32", 4⟩, [7]⟩
        = .error (.dtypeMismatch ⟨"float32", 4⟩ float64)) ∧
    (NumpyCodec.EncodeArray.call ⟨float64⟩ ⟨float64, [5, 6]⟩
        = .ok (bytesConcat 8 [5, 6]) ∧
      SqlCodec.EncodeArray.call ⟨float64⟩ ⟨float64, [5, 6]⟩
        = .ok (bytesConcat 8 [5, 6]) ∧
      (bytesConcat 8 [5, 6]).length = 2 * 8) :=
  ⟨C7_encode_dtype.1 float64 ⟨⟨"float32", 4⟩, [7]⟩ (by decide),
   C7_encode_dtype.2 float64 ⟨float64, [5, 6]⟩ rfl⟩

theorem doc_lookup_of_contains (d : Doc) (s : String) :
    (doc_keys d).contains s = true → ∃ v, doc_lookup d s = some v := by
  induction d with
  | nil => intro h; simp [doc_keys] at h
  | cons p rest ih =>
    intro h
    by_cases he : p.1 = s
    · exact ⟨p.2, by simp [doc_lookup, he]⟩
    · have : (doc_keys rest).contains s = true := by
        simp only [doc_keys, List.map_cons, List.contains_cons] at h
        rcases Bool.or_eq_true_iff.mp h with h1 | h1
        · exact absurd (beq_iff_eq.mp h1).symm he
        · exact h1
      obtain ⟨v, hv⟩ := ih this
      exact ⟨v, by simp [doc_lookup, he, hv]⟩

theorem lookup_fields_of_all (d : Doc) (ks : List Key) :
    ks.all (elem_in_available (doc_keys d)) = true →
    lookup_fields d ks = .ok (spec_fields d ks) := by
  induction ks with
  | nil => intro _; rfl
  | cons k rest ih =>
    intro h
    rw [List.all_cons, Bool.and_eq_true] at h
    obtain ⟨h1, h2⟩ := h
    cases k with
    | kstr s =>
      obtain ⟨v, hv⟩ := doc_lookup_of_contains d s h1
      simp [lookup_fields, lookup_field, hv, ih h2, spec_fields, Except.map]
    | klist ks2 => simp [elem_in_available] at h1
    | kdict kvs2 => simp [elem_in_available] at h1

theorem all_map_snd (kvs : List (String × Key)) (p : Key → Bool) :
    (kvs.map (fun q => q.2)).all p = kvs.all (fun q => p q.2) := by
  induction kvs with
  | nil => rfl
  | cons q rest ih => simp [ih]

/-- A successfully matched key extracts exactly the claim-described
input. -/
theorem extract_input_of_matches (d : Doc) (k : Key) :
    key_matches (doc_keys d) k = true →
    extract_input d k = .ok (spec_input d k) := by
  intro h
  cases k with
  | kstr s =>
    obtain ⟨v, hv⟩ := doc_lookup_of_contains d s h
    simp [extract_input, hv, spec_input, hv]
  | klist ks =>
    simp only [key_matches] at h
    simp [extract_input, lookup_fields_of_all d ks h, spec_input, Except.map]
  | kdict kvs =>
    simp only [key_matches] at h
    have hall : (kvs.map (fun p => p.2)).all (elem_in_available (doc_keys d)) = true := by
      rw [all_map_snd]
      exact h
    simp [extract_input, lookup_fields_of_all d _ hall, spec_input, Except.map]

theorem pick_foldl_no_match (avail : List String) (l : List (String × Key)) :
    ∀ acc : Option (String × Key),
    (∀ p ∈ l, key_matches avail p.2 = false) →
    l.foldl (fun acc p => if key_matches avail p.2 then some p else acc) acc = acc := by
  induction l with
  | nil => intro acc _; rfl
  | cons p rest ih =>
    intro acc h
    have hp := h p (List.mem_cons_self p rest)
    simp only [List.foldl_cons, hp, if_false]
    exact ih acc (fun q hq => h q (List.mem_cons_of_mem p hq))

theorem pick_foldl_last (avail : List String) (l : List (String × Key)) :
    ∀ (i : Nat) (m : String) (k : Key) (acc : Option (String × Key)),
    l.get? i = some (m, k) →
    key_matches avail k = true →
    (∀ j, i < j → ∀ p, l.get? j = some p → key_matches avail p.2 = false) →
    l.foldl (fun acc p => if key_matches avail p.2 then some p else acc) acc
      = some (m, k) := by
  induction l with
  | nil => intro i m k acc hget _ _; simp at hget
  | cons p rest ih =>
    intro i m k acc hget hmatch hafter
    cases i with
    | zero =>
      rw [List.get?_cons_zero, Option.some.injEq] at hget
      subst hget
      simp only [List.foldl_cons, hmatch, if_true]
      refine pick_foldl_no_match avail rest _ (fun q hq => ?_)
      obtain ⟨n, hn⟩ := List.get?_of_mem hq
      exact hafter (n + 1) (Nat.succ_pos n) q (by simpa using hn)
    | succ i' =>
      rw [List.get?_cons_succ] at hget
      simp only [List.foldl_cons]
      exact ih i' m k _ hget hmatch
        (fun j hj q hq => hafter (j + 1) (by omega) q (by simpa using hq))

/-- The selection loop keeps the LAST matching pair: if the pair at
position `i` matches and no later pair does, it is the one selected. -/
theorem pick_model_key_eq_last (avail : List String) (pairs : List (String × Key))
    (i : Nat) (m : String) (k : Key)
    (hget : pairs.get? i = some (m, k))
    (hmatch : key_matches avail k = true)
    (hafter : ∀ j, i < j → ∀ p, pairs.get? j = some p →
        key_matches avail p.2 = false) :
    pick_model_key avail pairs = some (m, k) :=
  pick_foldl_last avail pairs i m k none hget hmatch hafter

/-- C1 counterexample: with document fields `a` and `b` both present and
pairs `('m1','a'), ('m2','b')` both matching, `get_vector` returns the
prediction of the SECOND (last) matching pair's model `'m2'`, not the
first matching pair's `('m1', 'a')` triple as the claim states. -/
theorem C1_get_vector_counterexample :
    key_matches (doc_keys [("a", Value.vint 1), ("b", Value.vint 2)]) (.kstr "a")
      = true ∧
    VectorIndex.get_vector fix_vi [("a", .vint 1), ("b", .vint 2)] ["m1", "m2"]
        [.kstr "a", .kstr "b"] fix_db none
      = .ok (.vint 42, "m2", .kstr "b") ∧
    (Except.ok (Value.vint 42, "m2", Key.kstr "b")
        : Except VectorErr (Value × String × Key))
      ≠ .ok (.vint 41, "m1", .kstr "a") :=
  ⟨rfl, rfl, by
    intro h
    injection h with h1
    injection h1 with h2 h3
    injection h3 with h4 h5
    exact absurd h4 (by decide)⟩

/-- C1 (amended): for every query document containing all fields required
by some (model, key) pair, `get_vector` selects the LAST such matching
pair in list order (each loop iteration overwrites the previous match);
provided that pair's key is non-empty, it extracts the model input
according to the key's shape (single field for a string key, ordered
list of fields for a sequence key, list of the mapping's value fields
for a mapping key) and returns the triple of that model's single-item
prediction on the extracted input, the model's identifier, and the
resolved key. -/
theorem C1_get_vector_selects_last {ρ : Type} (vi : VectorIndex) (doc : Doc)
    (models : List String) (keys : List Key) (db : Datalayer ρ)
    (i : Nat) (m : String) (k : Key) (model : Model)
    (hget : (models.zip keys).get? i = some (m, k))
    (hmatch : key_matches (doc_keys doc) k = true)
    (hafter : ∀ j, i < j → ∀ p, (models.zip keys).get? j = some p →
        key_matches (doc_keys doc) p.2 = false)
    (hnf : key_falsy k = false)
    (hm : db.models m = some model) :
    vi.get_vector doc models keys db none
      = .ok (model.predict_one (spec_input doc k), model.identifier, k) := by
  have hpick := pick_model_key_eq_last (doc_keys doc) (models.zip keys) i m k
    hget hmatch hafter
  have hex := extract_input_of_matches doc k hmatch
  simp [VectorIndex.get_vector, Except.bind, hpick, hnf, hex, hm]

/-- C1 witness: the amended theorem applied at a concrete document where
only the second pair matches. -/
theorem C1_get_vector_witness :
    VectorIndex.get_vector fix_vi [("a", .vint 1), ("b", .vint 2)] ["m1", "m2"]
        [.kstr "zz", .kstr "b"] fix_db none
      = .ok (.vint 42, "m2", .kstr "b") :=
  C1_get_vector_selects_last fix_vi [("a", .vint 1), ("b", .vint 2)] ["m1", "m2"]
    [.kstr "zz", .kstr "b"] fix_db 1 "m2" (.kstr "b") fix_model2 rfl rfl
    (by
      intro j hj p hp
      rw [List.get?_eq_none.mpr (by simp [List.length_zip]; omega)] at hp
      cases hp)
    rfl rfl

/-- C6: for every query document in which no (model, key) pair's required
fields are all present and no `'_base'` sentinel occurs among the keys,
`get_vector` fails with the descriptive error carrying the attempted
document, keys and models — it does not return a vector. -/
theorem C6_get_vector_no_match {ρ : Type} (vi : VectorIndex) (doc : Doc)
    (models : List String) (keys : List Key) (db : Datalayer ρ)
    (hnm : ∀ p ∈ models.zip keys, key_matches (doc_keys doc) p.2 = false)
    (hnb : ∀ k ∈ keys, is_base_key k = false) :
    vi.get_vector doc models keys db none
      = .error (.keysMismatch doc keys models) := by
  have hpick : pick_model_key (doc_keys doc) (models.zip keys) = none :=
    pick_foldl_no_match (doc_keys doc) (models.zip keys) none hnm
  have hbase : List.findIdx? is_base_key keys = none :=
    List.findIdx?_eq_none_iff.mpr hnb
  simp [VectorIndex.get_vector, Except.bind, hpick, hbase]

/-- C6 witness: the theorem applied at a concrete document matching
neither key, with no `'_base'` fallback configured. -/
theorem C6_get_vector_no_match_witness :
    VectorIndex.get_vector fix_vi [("c", .vint 1)] ["m1", "m2"]
        [.kstr "a", .klist [.kstr "b", .kstr "c"]] fix_db none
      = .error (.keysMismatch [("c", .vint 1)]
          [.kstr "a", .klist [.kstr "b", .kstr "c"]] ["m1", "m2"]) :=
  C6_get_vector_no_match fix_vi [("c", .vint 1)] ["m1", "m2"]
    [.kstr "a", .klist [.kstr "b", .kstr "c"]] fix_db (by decide) (by decide)

/-- C10: `models_keys` returns two parallel lists of equal length — the
indexing listener's (model identifier, key) alone, or followed by the
compatible listener's when present — and consequently the
length-mismatch `ValueError` branch of `get_nearest` is unreachable. -/
theorem C10_models_keys_parallel {ρ : Type} (vi : VectorIndex) (db : Datalayer ρ)
    (like : Doc) (id_field : String) (outputs : Option Doc)
    (ids : Option (List String)) (n : Nat) :
    (vi.models_keys.1.length = vi.models_keys.2.length) ∧
    (vi.compatible_listener = none →
      vi.models_keys
        = ([vi.indexing_listener.model.identifier], [vi.indexing_listener.key])) ∧
    (∀ cl, vi.compatible_listener = some cl →
      vi.models_keys
        = ([vi.indexing_listener.model.identifier, cl.model.identifier],
            [vi.indexing_listener.key, cl.key])) ∧
    (∀ ms ks, vi.get_nearest like db id_field outputs ids n
        ≠ .error (.lenMismatch ms ks)) := by
  obtain ⟨ident, il, cl, meas, mv⟩ := vi
  cases cl with
  | none =>
    refine ⟨rfl, fun _ => rfl, ?_, ?_⟩
    · intro cl h
      exact Option.noConfusion h
    · intro ms ks
      simp only [VectorIndex.get_nearest, VectorIndex.models_keys, List.map_cons,
        List.map_nil, List.length_cons, List.length_nil, ne_eq, ite_not]
      simp only [if_true]
      cases doc_lookup like id_field with
      | some v => simp
      | none =>
        simp only
        cases VectorIndex.get_vector ⟨ident, il, none, meas, mv⟩ like _ _ db outputs with
        | ok h => simp
        | error e => simp
  | some c =>
    refine ⟨rfl, ?_, ?_, ?_⟩
    · intro h
      exact Option.noConfusion h
    · intro cl h
      injection h with h1
      subst h1
      rfl
    · intro ms ks
      simp only [VectorIndex.get_nearest, VectorIndex.models_keys, List.map_cons,
        List.map_nil, List.length_cons, List.length_nil, ne_eq, ite_not]
      simp only [if_true]
      cases doc_lookup like id_field with
      | some v => simp
      | none =>
        simp only
        cases VectorIndex.get_vector ⟨ident, il, some c, meas, mv⟩ like _ _ db outputs with
        | ok h => simp
        | error e => simp

/-- C10 witness: the theorem applied to concrete indexes without and with
a compatible listener. -/
theorem C10_models_keys_witness :
    VectorIndex.models_keys fix_vi = (["m1"], [.kstr "a"]) ∧
    VectorIndex.models_keys fix_vi2 = (["m1", "m2"], [.kstr "a", .kstr "b"]) :=
  ⟨(C10_models_keys_parallel fix_vi fix_db [] "_id" none none 100).2.1 rfl,
   (C10_models_keys_parallel fix_vi2 fix_db [] "_id" none none 100).2.2.1
     fix_listener2 rfl⟩

/-- C9 counterexample: a listener with key `'x'`, model identifier `'m'`
and model version `0` has `outputs = '_outputs.x.m.0'`, not the
`'outputs.x.m.0'` the claim's literal prefix `'outputs'` would give. -/
theorem C9_outputs_counterexample :
    Listener.outputs
        ⟨.kstr "x", ⟨"m", 0, none, fun _ => .vint 0⟩, ⟨[]⟩, "m/x", true, []⟩
      = "_outputs.x.m.0" ∧
    ("_outputs.x.m.0" : String) ≠ "outputs.x.m.0" :=
  ⟨rfl, by decide⟩

/-- C9 (amended): for every listener with a resolved model, `outputs`
equals `'_outputs.<id_key>.<model_identifier>.<model_version>'` — the
literal prefix is the outputs marker `'_outputs'`, not `'outputs'`. -/
theorem C9_outputs_path (l : Listener) :
    l.outputs
      = "_outputs." ++ id_key_of l.key ++ "." ++ l.model.identifier ++ "."
        ++ toString l.model.version := rfl

/-- C4: a listener with `active = False` schedules no job; a listener with
`active = True` and a resolved model schedules exactly one prediction job
bound to its model's identifier, its key, its select and its predict
options, with the given upstream jobs as prerequisites. -/
theorem C4_schedule_jobs (l : Listener) (deps : List Nat) :
    (l.active = false → l.schedule_jobs deps = []) ∧
    (l.active = true →
      l.schedule_jobs deps
        = [⟨l.model.identifier, l.key, l.select, deps, l.predict_kwargs⟩]) := by
  constructor <;> intro h <;>
    simp [Listener.schedule_jobs, h, Model.predict_job]

/-- C4 witness: the theorem applied to an inactive and to an active
concrete listener. -/
theorem C4_schedule_jobs_witness :
    Listener.schedule_jobs
        ⟨.kstr "x", ⟨"m", 0, none, fun _ => .vint 0⟩, ⟨[]⟩, "m/x", false, []⟩ [1]
      = [] ∧
    Listener.schedule_jobs
        ⟨.kstr "x", ⟨"m", 0, none, fun _ => .vint 0⟩, ⟨[]⟩, "m/x", true,
          [("batch_size", "2")]⟩ [1]
      = [⟨"m", .kstr "x", ⟨[]⟩, [1], [("batch_size", "2")]⟩] :=
  ⟨(C4_schedule_jobs _ [1]).1 rfl, (C4_schedule_jobs _ [1]).2 rfl⟩

end SDB

